import Mathlib

/-!
Verification development for a transcript-acquisition service.

The service (a TypeScript HTTP server around an external caption-extraction
tool) is shallowly embedded below: every pure function of the source is
translated into an executable Lean definition, and the effectful parts
(tool invocations, file-system scans) are abstracted as oracle parameters
whose concrete per-attempt behavior is an explicit argument, with the
sequence of external invocations recorded as a trace.

String manipulation is modelled over `List Char` (a string's character
data) with structural recursion only, so that every definition evaluates
by kernel reduction on concrete inputs.
-/

namespace YT

/-- Does the pattern occur at the head of the list? (JS `String.startsWith`). -/
def startsWithL : List Char → List Char → Bool
  | [], _ => true
  | _ :: _, [] => false
  | p :: ps, c :: cs => p == c && startsWithL ps cs

/-- Substring occurrence test (JS `String.includes`). -/
def containsSubL (pat : List Char) : List Char → Bool
  | [] => pat.isEmpty
  | c :: cs => startsWithL pat (c :: cs) || containsSubL pat cs

/-- Trim leading and trailing whitespace (JS `String.trim`). -/
def trimL (l : List Char) : List Char :=
  ((l.dropWhile Char.isWhitespace).reverse.dropWhile Char.isWhitespace).reverse

/-- Split on the newline character (JS `content.split("\n")`). -/
def splitLinesL : List Char → List (List Char)
  | [] => [[]]
  | c :: rest =>
    match splitLinesL rest with
    | [] => [[c]]
    | h :: t => if c = '\n' then [] :: h :: t else (c :: h) :: t

/-- Join with newline separators (JS `Array.join("\n")`). -/
def joinLinesL : List (List Char) → List Char
  | [] => []
  | [x] => x
  | x :: y :: t => x ++ '\n' :: joinLinesL (y :: t)

/-- If `pat` is a prefix of the list, return the remainder. -/
def dropPrefixL : List Char → List Char → Option (List Char)
  | [], s => some s
  | _ :: _, [] => none
  | p :: ps, c :: cs => if p = c then dropPrefixL ps cs else none

/-- Replace every (leftmost, non-overlapping) occurrence of `pat` by `rep`
(JS `String.replace` with a global regex of a literal pattern). The `Nat`
argument is reduction fuel, instantiated with the list length. -/
def replaceAllFuel (pat rep : List Char) : Nat → List Char → List Char
  | _, [] => []
  | 0, l => l
  | fuel + 1, c :: cs =>
    if pat.isEmpty then c :: cs
    else
      match dropPrefixL pat (c :: cs) with
      | some rest => rep ++ replaceAllFuel pat rep fuel rest
      | none => c :: replaceAllFuel pat rep fuel cs

/-- Remove the first occurrence of `pat` (JS `String.replace` with a string
pattern and empty replacement). -/
def replaceFirstL (pat : List Char) : List Char → List Char
  | [] => []
  | c :: cs =>
    match dropPrefixL pat (c :: cs) with
    | some rest => rest
    | none => c :: replaceFirstL pat cs

/-- Strip angle-bracket markup runs, mirroring the regex `<[^>]+>` applied
globally: on `<`, buffer characters until the first `>`; a nonempty buffer
closed by `>` is dropped, a `<>` pair or an unclosed `<` is kept verbatim. -/
def stripTagsGo : Option (List Char) → List Char → List Char
  | none, [] => []
  | some buf, [] => '<' :: buf.reverse
  | none, c :: rest => if c = '<' then stripTagsGo (some []) rest else c :: stripTagsGo none rest
  | some buf, c :: rest =>
    if c = '>' then
      match buf with
      | [] => '<' :: '>' :: stripTagsGo none rest
      | _ :: _ => stripTagsGo none rest
    else stripTagsGo (some (c :: buf)) rest

/-- String wrappers over the character-list primitives. -/
def sStartsWith (s pre : String) : Bool := startsWithL pre.data s.data

def sEndsWith (s suf : String) : Bool := startsWithL suf.data.reverse s.data.reverse

def containsSub (s pat : String) : Bool := containsSubL pat.data s.data

def sTrim (s : String) : String := String.mk (trimL s.data)

def splitLines (s : String) : List String := (splitLinesL s.data).map String.mk

def joinLines (ls : List String) : String := String.mk (joinLinesL (ls.map String.data))

def replaceAll (s pat rep : String) : String :=
  String.mk (replaceAllFuel pat.data rep.data s.data.length s.data)

def stripTags (s : String) : String := String.mk (stripTagsGo none s.data)

/-- Unescape the four HTML entities, in the source's order
(`&nbsp;`, `&amp;`, `&lt;`, `&gt;`). -/
def unescapeEntities (s : String) : String :=
  replaceAll (replaceAll (replaceAll (replaceAll s "&nbsp;" " ") "&amp;" "&") "&lt;" "<") "&gt;" ">"

/-- A line consisting purely of digits (the regex test `^\d+$`). -/
def isNumericLine (t : String) : Bool := !t.data.isEmpty && t.data.all Char.isDigit

/-- Clean one cue text line: strip markup tags, unescape entities, trim. -/
def cleanLine (t : String) : String := sTrim (unescapeEntities (stripTags t))

/-- Line loop of `parseVTT`: walk the lines with an "inside an active cue"
boolean, dropping headers, timestamp lines and cue identifiers, and
collecting cleaned nonempty cue text. -/
def processLines : List String → Bool → List String
  | [], _ => []
  | line :: rest, inCue =>
    let t := sTrim line
    if t = "WEBVTT" ∨ t = "" ∨ sStartsWith t "Kind:" ∨ sStartsWith t "Language:" then
      processLines rest false
    else if containsSub t "-->" then
      processLines rest true
    else if isNumericLine t ∨ sStartsWith t "NOTE" then
      processLines rest inCue
    else if inCue ∧ t ≠ "" then
      let clean := cleanLine t
      if clean = "" then processLines rest inCue else clean :: processLines rest inCue
    else
      processLines rest inCue

/-- Tail of the consecutive-duplicate filter: a line equal to its immediate
predecessor in the original sequence is dropped. -/
def dedupConsecutiveAux (prev : String) : List String → List String
  | [] => []
  | y :: rest => if y = prev then dedupConsecutiveAux y rest else y :: dedupConsecutiveAux y rest

/-- The filter `(line, index) => index === 0 || line !== textLines[index-1]`. -/
def dedupConsecutive : List String → List String
  | [] => []
  | x :: rest => x :: dedupConsecutiveAux x rest

/-- Content lines produced by the VTT parser, after duplicate collapsing. -/
def parseVTTLines (content : String) : List String :=
  dedupConsecutive (processLines (splitLines content) false)

/-- Parse VTT markup to plain text (`parseVTT` of the source). -/
def parseVTT (content : String) : String := joinLines (parseVTTLines content)

/-- The engine's error value (`TranscriptError` of the source): a message,
a string error code and an HTTP-style status code. -/
structure TranscriptError where
  message : String
  code : String
  statusCode : Nat
deriving DecidableEq, Repr

/-- Classify the tool's diagnostic stream (`parseYtDlpError` of the source). -/
def parseYtDlpError (stderr : String) : TranscriptError :=
  if containsSub stderr "Video unavailable" ∨ containsSub stderr "is not a valid URL" ∨
      containsSub stderr "Incomplete YouTube ID" then
    ⟨"Video not found: " ++ sTrim stderr, "VIDEO_NOT_FOUND", 404⟩
  else if containsSub stderr "429" ∨ containsSub stderr "Too Many Requests" then
    ⟨"Rate limited by YouTube: " ++ sTrim stderr, "RATE_LIMITED", 429⟩
  else if containsSub stderr "Private video" ∨ containsSub stderr "Sign in" then
    ⟨"Video is private or requires authentication: " ++ sTrim stderr, "ACCESS_DENIED", 403⟩
  else
    ⟨"yt-dlp error: " ++ sTrim stderr, "UNKNOWN", 500⟩

/-- The components of a parsed URL that the source reads off the platform's
URL object: hostname, pathname, and the `v` query parameter. The WHATWG URL
parser itself is supplied as an abstract `String → Option URLParts`
function (`none` models the constructor throwing). -/
structure URLParts where
  hostname : String
  pathname : String
  vParam : Option String
deriving DecidableEq, Repr

/-- The fixed allow-list of platform hostnames (`validHosts` of the source). -/
def validHosts : List String :=
  ["youtube.com", "www.youtube.com", "m.youtube.com", "youtu.be", "www.youtu.be"]

/-- Host check: exact match with, or subdomain of, an allow-listed host. -/
def hostOnAllowList (hostname : String) : Bool :=
  validHosts.any (fun host => hostname == host || sEndsWith hostname ("." ++ host))

/-- `isValidYouTubeUrl` of the source, over the abstract URL parser. -/
def isValidYouTubeUrl (parse : String → Option URLParts) (url : String) : Bool :=
  match parse url with
  | none => false
  | some p => hostOnAllowList p.hostname

/-- Extract the id segment after one of the `/v/`, `/embed/`, `/shorts/`,
`/live/` path prefixes: one or more characters not `/` or `?`. -/
def matchSeg (pathname pre : String) : Option String :=
  if sStartsWith pathname pre then
    match (pathname.data.drop pre.data.length).takeWhile (fun c => !(c == '/') && !(c == '?')) with
    | [] => none
    | c :: cs => some (String.mk (c :: cs))
  else none

/-- The path-pattern branch of `extractVideoId`
(regex `^\/(v|embed|shorts|live)\/([^/?]+)`). -/
def matchVideoPathPattern (pathname : String) : Option String :=
  match matchSeg pathname "/v/" with
  | some s => some s
  | none =>
    match matchSeg pathname "/embed/" with
    | some s => some s
    | none =>
      match matchSeg pathname "/shorts/" with
      | some s => some s
      | none => matchSeg pathname "/live/"

/-- `extractVideoId` of the source: short-link path segment, `v` query
parameter on `/watch`, or the `/v|embed|shorts|live/` path patterns. -/
def extractVideoId (parse : String → Option URLParts) (url : String) : Option String :=
  match parse url with
  | none => none
  | some p =>
    if containsSub p.hostname "youtu.be" then
      match (p.pathname.data.drop 1).takeWhile (fun c => !(c == '/')) with
      | [] => none
      | c :: cs => some (String.mk (c :: cs))
    else if p.pathname = "/watch" then p.vParam
    else matchVideoPathPattern p.pathname

/-- Caption availability snapshot (`SubtitleInfo` of the source): the
detected original language (`null` or the empty string count as absent for
JS truthiness) and the key lists of the manual and auto caption maps, in
the source object's key order. -/
structure SubtitleInfo where
  language : Option String
  subtitles : List String
  automatic_captions : List String
deriving DecidableEq, Repr

/-- A ranked candidate (`SelectedLanguage` of the source). -/
structure SelectedLanguage where
  lang : String
  isManual : Bool
deriving DecidableEq, Repr

/-- `baseLangCode` of the source: `lang.split("-")[0]`. -/
def baseLangCode (lang : String) : String :=
  String.mk (lang.data.takeWhile (fun c => !(c == '-')))

/-- `findMatchingLang` of the source: exact match first, else the base
language code, skipping `-orig`-suffixed keys. -/
def findMatchingLang (langs : List String) (target : String) : Option String :=
  if langs.contains target then some target
  else
    langs.find? (fun l => l == baseLangCode target && !(sEndsWith l "-orig"))

/-- Non-language sentinel keys excluded from both pools. -/
def invalidLangs : List String := ["live_chat"]

/-- The filtered manual-caption key pool. -/
def manualLangsOf (info : SubtitleInfo) : List String :=
  info.subtitles.filter (fun l => !(invalidLangs.contains l))

/-- The filtered auto-caption key pool. -/
def autoLangsOf (info : SubtitleInfo) : List String :=
  info.automatic_captions.filter (fun l => !(invalidLangs.contains l))

/-- JS truthiness of the original-language field: present and nonempty. -/
def origLangTruthy : Option String → Bool
  | some o => !(o == "")
  | none => false

/-- Priority 1: manual caption matching the original language. -/
def prio1 (info : SubtitleInfo) : List SelectedLanguage :=
  match info.language with
  | some o =>
    if o = "" then []
    else
      match findMatchingLang (manualLangsOf info) o with
      | some m => [⟨m, true⟩]
      | none => []
  | none => []

/-- Priority 2: first manual caption whose tag starts with "en". -/
def prio2 (info : SubtitleInfo) : List SelectedLanguage :=
  match (manualLangsOf info).find? (fun l => sStartsWith l "en") with
  | some m => [⟨m, true⟩]
  | none => []

/-- Priority 3: every manual caption, in key order. -/
def prio3 (info : SubtitleInfo) : List SelectedLanguage :=
  (manualLangsOf info).map (fun l => ⟨l, true⟩)

/-- Priority 4: if the original language is known and its base code or the
base code suffixed "-orig" is in the auto pool, the base code as an auto
candidate. -/
def prio4 (info : SubtitleInfo) : List SelectedLanguage :=
  match info.language with
  | some o =>
    if o = "" then []
    else
      if (autoLangsOf info).any (fun l => l == baseLangCode o || l == baseLangCode o ++ "-orig") then
        [⟨baseLangCode o, false⟩]
      else []
  | none => []

/-- Priority 5: the auto candidate "en" if the pool has "en" itself or any
"en-"-prefixed key not ending in "-orig". -/
def prio5 (info : SubtitleInfo) : List SelectedLanguage :=
  match (autoLangsOf info).find?
      (fun l => l == "en" || (sStartsWith l "en-" && !(sEndsWith l "-orig"))) with
  | some _ => [⟨"en", false⟩]
  | none => []

/-- Final sweep: every remaining auto caption, in key order. -/
def prio6 (info : SubtitleInfo) : List SelectedLanguage :=
  (autoLangsOf info).map (fun l => ⟨l, false⟩)

/-- The full sequence of `add` calls issued by `selectLanguagePriorities`,
duplicates included. -/
def candidateStream (info : SubtitleInfo) : List SelectedLanguage :=
  prio1 info ++ prio2 info ++ prio3 info ++ prio4 info ++ prio5 info ++ prio6 info

/-- First-occurrence deduplication, the semantics of the `seen` set inside
`selectLanguagePriorities` (and of `Array.from(new Set(...))`). -/
def dedupKeepFirstAux {α : Type} [DecidableEq α] (seen : List α) : List α → List α
  | [] => []
  | x :: rest =>
    if x ∈ seen then dedupKeepFirstAux seen rest else x :: dedupKeepFirstAux (x :: seen) rest

/-- First-occurrence deduplication from an empty `seen` set. -/
def dedupKeepFirst {α : Type} [DecidableEq α] (l : List α) : List α := dedupKeepFirstAux [] l

/-- `selectLanguagePriorities` of the source: the deduplicated candidate
stream, insertion order preserved (index 0 = highest priority). -/
def selectLanguagePriorities (info : SubtitleInfo) : List SelectedLanguage :=
  dedupKeepFirst (candidateStream info)

/-- Subtitle source type: manually authored or machine-generated. -/
inductive SubType
  | manual
  | auto
deriving DecidableEq, Repr

/-- The observable outcome of one external-tool download invocation: exit
code, diagnostic stream, the caption files left in the scoped workspace,
and their contents. -/
structure ToolRun where
  exitCode : Nat
  stderr : String
  files : List String
  fileContent : String → String

/-- Does a filename carry the auto-generated marker (`.auto.` infix)? -/
def hasAutoMarker (name : String) : Bool := containsSub name ".auto."

/-- Match against the glob `{videoId}.{lang}*.vtt`: the fixed prefix and
suffix around a `*` that matches any run of non-separator characters. -/
def matchesSubGlob (videoId lang name : String) : Bool :=
  startsWithL (videoId.data ++ '.' :: lang.data) name.data &&
  startsWithL ".vtt".data.reverse name.data.reverse &&
  videoId.data.length + lang.data.length + 5 ≤ name.data.length &&
  !((name.data.drop (videoId.data.length + lang.data.length + 1)).take
      (name.data.length - (videoId.data.length + lang.data.length + 1) - 4)).contains '/'

/-- Match against the glob `{videoId}.*.vtt`. -/
def matchesAnyGlob (videoId name : String) : Bool :=
  startsWithL (videoId.data ++ ['.']) name.data &&
  startsWithL ".vtt".data.reverse name.data.reverse &&
  videoId.data.length + 5 ≤ name.data.length &&
  !((name.data.drop (videoId.data.length + 1)).take
      (name.data.length - (videoId.data.length + 1) - 4)).contains '/'

/-- `findSubtitleFile` of the source: among files matching the language
glob, prefer a manual subtitle (no `.auto.` in the name), else an auto one. -/
def findSubtitleFile (files : List String) (videoId lang : String) :
    Option (String × SubType) :=
  match (files.filter (fun f => matchesSubGlob videoId lang f)).find?
      (fun f => !(hasAutoMarker f)) with
  | some m => some (m, SubType.manual)
  | none =>
    match (files.filter (fun f => matchesSubGlob videoId lang f)).find? hasAutoMarker with
    | some a => some (a, SubType.auto)
    | none => none

/-- Remove a trailing suffix if present (an end-anchored regex replace). -/
def stripSuffix (s suf : String) : String :=
  if sEndsWith s suf then String.mk (s.data.take (s.data.length - suf.data.length)) else s

/-- Language extraction from a matched filename in `findAnySubtitleFile`:
remove the first `{videoId}.` occurrence, then the `.auto.vtt` or `.vtt`
suffix. -/
def extractLangFromFile (videoId f : String) : String :=
  stripSuffix (stripSuffix (String.mk (replaceFirstL (videoId.data ++ ['.']) f.data)) ".auto.vtt") ".vtt"

/-- `findAnySubtitleFile` of the source: any `{videoId}.*.vtt` file,
preferring a manual one, else the first file in scan order. -/
def findAnySubtitleFile (files : List String) (videoId : String) :
    Option (String × SubType × String) :=
  match files.filter (fun f => matchesAnyGlob videoId f) with
  | [] => none
  | f0 :: fs =>
    match (f0 :: fs).find? (fun f => !(hasAutoMarker f)) with
    | some m => some (m, SubType.manual, extractLangFromFile videoId m)
    | none => some (f0, SubType.auto, extractLangFromFile videoId f0)

/-- Successful result of one language-specific download attempt. -/
structure DlOk where
  transcript : String
  subtitleType : SubType
deriving DecidableEq, Repr

/-- Successful result of the original-language fallback attempt. -/
structure OrigOk where
  transcript : String
  subtitleType : SubType
  detectedLanguage : String
deriving DecidableEq, Repr

/-- `tryDownloadSubtitle` of the source, given the tool invocation's
observable outcome: classify a nonzero exit, locate the caption file for
the requested language, parse it, and reject an empty transcript. -/
def tryDownloadSubtitle (run : ToolRun) (videoId lang : String) :
    Except TranscriptError DlOk :=
  if run.exitCode ≠ 0 then Except.error (parseYtDlpError run.stderr)
  else
    match findSubtitleFile run.files videoId lang with
    | none => Except.error ⟨"No subtitles available for language: " ++ lang, "NO_SUBTITLES", 404⟩
    | some (name, ty) =>
      if sTrim (parseVTT (run.fileContent name)) = "" then
        Except.error ⟨"Transcript is empty", "NO_SUBTITLES", 404⟩
      else Except.ok ⟨parseVTT (run.fileContent name), ty⟩

/-- `tryDownloadOriginalSubtitle` of the source: auto captions only,
language-agnostic file lookup, reporting the detected language. The
`--sub-lang` argument is the base code of its `originalLang` argument and
is recorded by the caller's trace. -/
def tryDownloadOriginalSubtitle (run : ToolRun) (videoId : String) :
    Except TranscriptError OrigOk :=
  if run.exitCode ≠ 0 then Except.error (parseYtDlpError run.stderr)
  else
    match findAnySubtitleFile run.files videoId with
    | none => Except.error ⟨"No auto-generated subtitles available", "NO_SUBTITLES", 404⟩
    | some (name, ty, dl) =>
      if sTrim (parseVTT (run.fileContent name)) = "" then
        Except.error ⟨"Transcript is empty", "NO_SUBTITLES", 404⟩
      else Except.ok ⟨parseVTT (run.fileContent name), ty, dl⟩

/-- A JavaScript exception as the cascade's `catch` sees it: either a
`TranscriptError` or some other raw exception. -/
inductive JsError
  | te (e : TranscriptError)
  | other
deriving DecidableEq, Repr

/-- `error instanceof TranscriptError && error.code === "RATE_LIMITED"`. -/
def isRateLimitErr : JsError → Bool
  | JsError.te t => t.code == "RATE_LIMITED"
  | JsError.other => false

/-- Rate-limit test on an attempt outcome. -/
def exceptIsRL : Except JsError DlOk → Bool
  | Except.error e => isRateLimitErr e
  | Except.ok _ => false

/-- One external invocation made while serving a request. -/
inductive Call
  | avail
  | dlSub (lang : String)
  | dlOrig (baseLang : String)
  | metaFetch
deriving DecidableEq, Repr

/-- The per-request world: the metadata fetch's outcome, the outcome of the
k-th language-specific download attempt for a given language, and the
outcome of the original-language fallback attempt for a given base code. -/
structure Env where
  avail : Except JsError SubtitleInfo
  subAttempt : Nat → String → Except JsError DlOk
  origAttempt : String → Except JsError OrigOk

/-- The engine's final output (`TranscriptResult`). -/
structure TResult where
  transcript : String
  videoId : String
  subtitleType : SubType
  detectedLanguage : String
  wasAutoDetected : Bool
  availableLanguages : Option (List String)
deriving DecidableEq, Repr

/-- The generic no-captions error raised by the cascade. -/
def noSubsVideoErr : TranscriptError :=
  ⟨"No subtitles available for this video", "NO_SUBTITLES", 404⟩

/-- The union of all caption keys (`Array.from(new Set([...]))`). -/
def availLangsOf (info : SubtitleInfo) : List String :=
  dedupKeepFirst (info.subtitles ++ info.automatic_captions)

/-- The base code passed to the fallback attempt:
`(subtitleInfo.language ?? "en").split("-")[0]`. -/
def fallbackBase (info : SubtitleInfo) : String :=
  baseLangCode (info.language.getD "en")

/-- The capped ranked-candidate loop of auto-detect mode: try each
candidate with the k-th attempt oracle; success or a non-rate-limit error
leaves the loop (left injection), rate-limit errors are remembered and the
loop continues; exhaustion returns the remembered error (right injection).
The second component is the trace of download calls made. -/
def rankedLoop (env : Env) (videoId : String) (availLangs : List String) :
    List SelectedLanguage → Nat → Option TranscriptError →
    (Except JsError TResult ⊕ Option TranscriptError) × List Call
  | [], _, lastError => (Sum.inr lastError, [])
  | c :: rest, k, _ =>
    match env.subAttempt k c.lang with
    | Except.ok d =>
      (Sum.inl (Except.ok ⟨d.transcript, videoId, d.subtitleType, c.lang, true, some availLangs⟩),
       [Call.dlSub c.lang])
    | Except.error (JsError.te t) =>
      if t.code = "RATE_LIMITED" then
        match rankedLoop env videoId availLangs rest (k + 1) (some t) with
        | (r, tr) => (r, Call.dlSub c.lang :: tr)
      else (Sum.inl (Except.error (JsError.te t)), [Call.dlSub c.lang])
    | Except.error JsError.other =>
      (Sum.inl (Except.error JsError.other), [Call.dlSub c.lang])

/-- Auto-detect mode of `downloadAndParseTranscript`: fetch availability,
rank, try at most the first two candidates, then the single
original-language fallback with the error precedence of the source's final
`catch` block. -/
def autoCascade (env : Env) (videoId : String) : Except JsError TResult × List Call :=
  match env.avail with
  | Except.error e => (Except.error e, [Call.avail])
  | Except.ok info =>
    if (selectLanguagePriorities info).isEmpty then
      (Except.error (JsError.te noSubsVideoErr), [Call.avail])
    else
      match rankedLoop env videoId (availLangsOf info) ((selectLanguagePriorities info).take 2) 0 none with
      | (Sum.inl r, tr) => (r, Call.avail :: tr)
      | (Sum.inr lastError, tr) =>
        ((match env.origAttempt (fallbackBase info) with
          | Except.ok r =>
            Except.ok ⟨r.transcript, videoId, r.subtitleType, r.detectedLanguage, true,
              some (availLangsOf info)⟩
          | Except.error (JsError.te t) =>
            if t.code = "RATE_LIMITED" then Except.error (JsError.te t)
            else
              match lastError with
              | some le => Except.error (JsError.te le)
              | none => Except.error (JsError.te t)
          | Except.error JsError.other =>
            match lastError with
            | some le => Except.error (JsError.te le)
            | none => Except.error (JsError.te noSubsVideoErr)),
         Call.avail :: (tr ++ [Call.dlOrig (fallbackBase info)]))

/-- Is the request in explicit-language mode (`lang && lang !== "auto"`)? -/
def isExplicitReq : Option String → Bool
  | some l => !(l == "") && !(l == "auto")
  | none => false

/-- `downloadAndParseTranscript` of the source, returning the result and
the trace of external invocations. -/
def downloadAndParseTranscript (parse : String → Option URLParts) (env : Env)
    (url : String) (lang : Option String) : Except JsError TResult × List Call :=
  match extractVideoId parse url with
  | none => (Except.error (JsError.te ⟨"Could not extract video ID", "INVALID_URL", 400⟩), [])
  | some videoId =>
    match lang with
    | some l =>
      if l ≠ "" ∧ l ≠ "auto" then
        match env.subAttempt 0 l with
        | Except.error e => (Except.error e, [Call.dlSub l])
        | Except.ok d =>
          (Except.ok ⟨d.transcript, videoId, d.subtitleType, l, false, none⟩, [Call.dlSub l])
      else autoCascade env videoId
    | none => autoCascade env videoId

/-- Video metadata fetched by the enrichment step. -/
structure MetaInfo where
  description : String
  view_count : Nat
  author : String
deriving DecidableEq, Repr

/-- The `auto` sentinel mapping of the route handler:
`langParam === "auto" ? undefined : langParam`. -/
def normalizeLang : Option String → Option String
  | some "auto" => none
  | x => x

/-- The HTTP layer's response value. -/
inductive HResp
  | success (transcript : String) (videoId : String) (subtitleType : SubType)
      (language : String) (wasAutoDetected : Bool)
      (availableLanguages : Option (List String)) (description : String)
      (viewCount : Nat) (author : String)
  | failure (error : String) (code : String) (status : Nat)
deriving DecidableEq, Repr

/-- The `/transcript` route handler: map the `auto` sentinel to
auto-detect mode, validate URL presence and host, run the cascade, then
the metadata enrichment, translating errors per the source. -/
def transcriptEndpoint (parse : String → Option URLParts) (env : Env)
    (metaRes : Except JsError MetaInfo) (urlParam langParam : Option String) :
    HResp × List Call :=
  match urlParam with
  | none => (HResp.failure "URL is required" "INVALID_URL" 400, [])
  | some u =>
    if u = "" then (HResp.failure "URL is required" "INVALID_URL" 400, [])
    else if !(isValidYouTubeUrl parse u) then
      (HResp.failure "Invalid YouTube URL" "INVALID_URL" 400, [])
    else
      match downloadAndParseTranscript parse env u (normalizeLang langParam) with
      | (Except.error (JsError.te t), tr) => (HResp.failure t.message t.code t.statusCode, tr)
      | (Except.error JsError.other, tr) => (HResp.failure "Internal server error" "UNKNOWN" 500, tr)
      | (Except.ok r, tr) =>
        match metaRes with
        | Except.error (JsError.te t) =>
          (HResp.failure t.message t.code t.statusCode, tr ++ [Call.metaFetch])
        | Except.error JsError.other =>
          (HResp.failure "Internal server error" "UNKNOWN" 500, tr ++ [Call.metaFetch])
        | Except.ok m =>
          (HResp.success r.transcript r.videoId r.subtitleType r.detectedLanguage
             r.wasAutoDetected r.availableLanguages m.description m.view_count m.author,
           tr ++ [Call.metaFetch])

/-- The error raised when the fallback attempt fails with `e` after the
ranked attempts remembered `lastErr`, spelled as the claimed precedence: a
rate-limited fallback error itself; else the remembered rate-limit error
if any; else the fallback's own engine error; else a generic NO_SUBTITLES. -/
def fallbackRaise (lastErr : Option TranscriptError) (e : JsError) : Except JsError TResult :=
  match e with
  | JsError.te t =>
    if t.code = "RATE_LIMITED" then Except.error (JsError.te t)
    else
      match lastErr with
      | some le => Except.error (JsError.te le)
      | none => Except.error (JsError.te t)
  | JsError.other =>
    match lastErr with
    | some le => Except.error (JsError.te le)
    | none => Except.error (JsError.te noSubsVideoErr)

/-- The language-specific download calls of a trace, in order. -/
def subLangs (tr : List Call) : List String :=
  tr.filterMap (fun c => match c with | Call.dlSub l => some l | _ => none)

/-- Is a call a download attempt (ranked or fallback)? -/
def isDownloadCall : Call → Bool
  | Call.dlSub _ => true
  | Call.dlOrig _ => true
  | _ => false

/-- The download attempts of a trace. -/
def downloadCalls (tr : List Call) : List Call := tr.filter isDownloadCall

/-- The fallback download calls of a trace. -/
def origCalls (tr : List Call) : List Call :=
  tr.filter (fun c => match c with | Call.dlOrig _ => true | _ => false)

/-- A URL parser instance used by the witness theorems: a canonical watch
URL on an allow-listed host. -/
def parseW : String → Option URLParts :=
  fun _ => some ⟨"www.youtube.com", "/watch", some "vid01234567"⟩

/-- A URL parser instance resolving to a disallowed host. -/
def parseBad : String → Option URLParts :=
  fun _ => some ⟨"example.com", "/watch", some "abc"⟩

/-- A rate-limit error instance. -/
def rlErrW : TranscriptError := ⟨"Rate limited by YouTube: 429", "RATE_LIMITED", 429⟩

/-- Availability with a known original language and one auto caption. -/
def infoW : SubtitleInfo := ⟨some "es", [], ["es"]⟩

/-- Availability with an unknown original language. -/
def infoW9 : SubtitleInfo := ⟨none, [], ["fr"]⟩

/-- A world where every download attempt is rate-limited. -/
def envW : Env :=
  ⟨Except.ok infoW, fun _ _ => Except.error (JsError.te rlErrW),
   fun _ => Except.error JsError.other⟩

/-- A rate-limited world whose video has no detected original language. -/
def envW9 : Env :=
  ⟨Except.ok infoW9, fun _ _ => Except.error (JsError.te rlErrW),
   fun _ => Except.error JsError.other⟩

/-- A world where language-specific download attempts succeed. -/
def envOk : Env :=
  ⟨Except.ok infoW, fun _ _ => Except.ok ⟨"txt", SubType.auto⟩,
   fun _ => Except.error JsError.other⟩

theorem mem_dedupKeepFirstAux {α : Type} [DecidableEq α] (x : α) (l : List α) :
    ∀ seen : List α, x ∈ dedupKeepFirstAux seen l ↔ (x ∈ l ∧ x ∉ seen) := by
  induction l with
  | nil => intro seen; simp [dedupKeepFirstAux]
  | cons y rest ih =>
    intro seen
    rw [dedupKeepFirstAux]
    by_cases hy : y ∈ seen
    · rw [if_pos hy, ih seen]
      constructor
      · rintro ⟨hr, hs⟩
        exact ⟨List.mem_cons_of_mem y hr, hs⟩
      · rintro ⟨hor, hs⟩
        rcases List.mem_cons.mp hor with rfl | hr
        · exact absurd hy hs
        · exact ⟨hr, hs⟩
    · rw [if_neg hy]
      constructor
      · intro hmem
        rcases List.mem_cons.mp hmem with rfl | hr
        · exact ⟨List.mem_cons_self x rest, hy⟩
        · obtain ⟨h1, h2⟩ := (ih (y :: seen)).mp hr
          exact ⟨List.mem_cons_of_mem y h1, fun hs => h2 (List.mem_cons_of_mem y hs)⟩
      · rintro ⟨hor, hs⟩
        by_cases hxy : x = y
        · subst hxy
          exact List.mem_cons_self x _
        · rcases List.mem_cons.mp hor with h | hr
          · exact absurd h hxy
          · refine List.mem_cons_of_mem y ((ih (y :: seen)).mpr ⟨hr, ?_⟩)
            intro hys
            rcases List.mem_cons.mp hys with h | h
            · exact hxy h
            · exact hs h

theorem mem_dedupKeepFirst {α : Type} [DecidableEq α] (x : α) (l : List α) :
    x ∈ dedupKeepFirst l ↔ x ∈ l := by
  rw [dedupKeepFirst, mem_dedupKeepFirstAux]
  simp

theorem nodup_dedupKeepFirstAux {α : Type} [DecidableEq α] (l : List α) :
    ∀ seen : List α, (dedupKeepFirstAux seen l).Nodup := by
  induction l with
  | nil => intro seen; simp [dedupKeepFirstAux]
  | cons y rest ih =>
    intro seen
    rw [dedupKeepFirstAux]
    by_cases hy : y ∈ seen
    · rw [if_pos hy]
      exact ih seen
    · rw [if_neg hy]
      refine List.nodup_cons.mpr ⟨?_, ih (y :: seen)⟩
      intro hmem
      exact ((mem_dedupKeepFirstAux y rest (y :: seen)).mp hmem).2 (List.mem_cons_self y seen)

theorem nodup_dedupKeepFirst {α : Type} [DecidableEq α] (l : List α) :
    (dedupKeepFirst l).Nodup :=
  nodup_dedupKeepFirstAux l []

theorem chain_ne_dedupConsecutiveAux (l : List String) :
    ∀ prev : String, List.Chain' (fun a b => a ≠ b) (prev :: dedupConsecutiveAux prev l) := by
  induction l with
  | nil => intro prev; simp [dedupConsecutiveAux]
  | cons y rest ih =>
    intro prev
    rw [dedupConsecutiveAux]
    by_cases hy : y = prev
    · rw [if_pos hy]
      subst hy
      exact ih y
    · rw [if_neg hy]
      exact List.chain'_cons.mpr ⟨Ne.symm hy, ih y⟩

theorem chain_ne_dedupConsecutive (l : List String) :
    List.Chain' (fun a b => a ≠ b) (dedupConsecutive l) := by
  cases l with
  | nil => simp [dedupConsecutive]
  | cons x rest => exact chain_ne_dedupConsecutiveAux rest x

theorem subLangs_map_dlSub (l : List SelectedLanguage) :
    subLangs (l.map (fun c => Call.dlSub c.lang)) = l.map SelectedLanguage.lang := by
  induction l with
  | nil => rfl
  | cons c rest ih => simp [subLangs, List.filterMap_cons] at ih ⊢; exact ih

theorem downloadCalls_map_dlSub (l : List SelectedLanguage) :
    downloadCalls (l.map (fun c => Call.dlSub c.lang)) = l.map (fun c => Call.dlSub c.lang) := by
  induction l with
  | nil => rfl
  | cons c rest ih => simp [downloadCalls, isDownloadCall, List.filter_cons, ih]

theorem origCalls_map_dlSub (l : List SelectedLanguage) :
    origCalls (l.map (fun c => Call.dlSub c.lang)) = [] := by
  induction l with
  | nil => rfl
  | cons c rest ih => simp [origCalls, List.filter_cons, ih]

theorem rankedLoop_trace (env : Env) (vid : String) (al : List String) :
    ∀ (cands : List SelectedLanguage) (k : Nat) (le : Option TranscriptError),
      ∃ m, m ≤ cands.length ∧
        (rankedLoop env vid al cands k le).2
          = (cands.take m).map (fun c => Call.dlSub c.lang) := by
  intro cands
  induction cands with
  | nil => exact fun k le => ⟨0, Nat.le_refl 0, rfl⟩
  | cons c rest ih =>
    intro k le
    rw [rankedLoop]
    cases hatt : env.subAttempt k c.lang with
    | ok d => exact ⟨1, by simp, by simp⟩
    | error e =>
      cases e with
      | te t =>
        by_cases hc : t.code = "RATE_LIMITED"
        · obtain ⟨m, hm, htr⟩ := ih (k + 1) (some t)
          rcases hrec : rankedLoop env vid al rest (k + 1) (some t) with ⟨r, tr⟩
          rw [hrec] at htr
          exact ⟨m + 1, Nat.succ_le_succ hm, by simp [hc, hrec, htr]⟩
        · exact ⟨1, by simp, by simp [hc]⟩
      | other => exact ⟨1, by simp, by simp⟩

theorem subLangs_cons_avail (tr : List Call) : subLangs (Call.avail :: tr) = subLangs tr := by
  simp [subLangs, List.filterMap_cons]

theorem subLangs_append (a b : List Call) : subLangs (a ++ b) = subLangs a ++ subLangs b :=
  List.filterMap_append a b _

theorem downloadCalls_cons_avail (tr : List Call) :
    downloadCalls (Call.avail :: tr) = downloadCalls tr := by
  simp [downloadCalls, List.filter_cons, isDownloadCall]

theorem downloadCalls_append (a b : List Call) :
    downloadCalls (a ++ b) = downloadCalls a ++ downloadCalls b :=
  List.filter_append a b

theorem origCalls_cons_avail (tr : List Call) : origCalls (Call.avail :: tr) = origCalls tr := by
  simp [origCalls, List.filter_cons]

theorem origCalls_append (a b : List Call) :
    origCalls (a ++ b) = origCalls a ++ origCalls b :=
  List.filter_append a b

theorem origCalls_dlOrig (b : String) : origCalls [Call.dlOrig b] = [Call.dlOrig b] := rfl

theorem rankedLoop_two (env : Env) (vid : String) (al : List String)
    (c : SelectedLanguage) (rest : List SelectedLanguage) (k : Nat)
    (le : Option TranscriptError)
    (h : 2 ≤ ((rankedLoop env vid al (c :: rest) k le).2).length) :
    exceptIsRL (env.subAttempt k c.lang) = true := by
  rw [rankedLoop] at h
  cases hatt : env.subAttempt k c.lang with
  | ok d => simp [hatt] at h
  | error e =>
    cases e with
    | te t =>
      by_cases hc : t.code = "RATE_LIMITED"
      · simp [exceptIsRL, hatt, isRateLimitErr, hc]
      · simp [hatt, hc] at h
    | other => simp [hatt] at h

theorem dAPT_no_vid (parse : String → Option URLParts) (env : Env) (url : String)
    (lang : Option String) (h1 : extractVideoId parse url = none) :
    downloadAndParseTranscript parse env url lang =
      (Except.error (JsError.te ⟨"Could not extract video ID", "INVALID_URL", 400⟩), []) := by
  simp [downloadAndParseTranscript, h1]

theorem dAPT_auto_mode (parse : String → Option URLParts) (env : Env) (url : String)
    (lang : Option String) (vid : String)
    (h0 : isExplicitReq lang = false) (h1 : extractVideoId parse url = some vid) :
    downloadAndParseTranscript parse env url lang = autoCascade env vid := by
  rw [downloadAndParseTranscript, h1]
  cases lang with
  | none => rfl
  | some l =>
    have hor : l = "" ∨ l = "auto" := by
      by_cases he : l = ""
      · exact Or.inl he
      · by_cases ha : l = "auto"
        · exact Or.inr ha
        · rw [isExplicitReq] at h0
          simp [he, ha] at h0
    rcases hor with h | h <;> simp [h]

/-- Claim C6: the prioritizer `selectLanguagePriorities` is a
deterministic, total, pure function (it is a Lean function of the
availability snapshot alone), and its output sequence never contains two
candidates with the same (languageTag, isManual) pair; the sequence order
is the priority (insertion) order by construction. -/
theorem C6_prioritizer_nodup (info : SubtitleInfo) :
    ((selectLanguagePriorities info).map (fun s => (s.lang, s.isManual))).Nodup := by
  refine List.Nodup.map ?_ (nodup_dedupKeepFirst _)
  intro a b h
  cases a
  cases b
  simp only [Prod.mk.injEq] at h
  simp [h.1, h.2]

/-- Claim C7: for every input document the markup parser collapses
consecutive exact-duplicate content lines before joining with newlines, so
the line sequence of the output never contains two adjacent equal lines;
on an input whose content lines are ["hello","hello","world"] the parse
result is "hello\nworld". -/
theorem C7_parser_dedup :
    (∀ content : String, List.Chain' (fun a b => a ≠ b) (parseVTTLines content)) ∧
    parseVTT "WEBVTT\n\n00:00:00.000 --> 00:00:01.000\nhello\nhello\nworld" = "hello\nworld" := by
  constructor
  · intro content
    exact chain_ne_dedupConsecutive _
  · decide

/-- Claim C4 counterexample: with no manual captions and the auto pool
{"en-GB"}, the bare English tag is absent from the auto pool, yet the
prioritizer still emits the auto candidate ("en", auto) — the code's
English-auto rule also fires on "en-"-prefixed keys, contradicting the
claim's "only when the bare English tag is present". -/
theorem C4_counterexample :
    SelectedLanguage.mk "en" false ∈ selectLanguagePriorities ⟨none, [], ["en-GB"]⟩ ∧
    ¬ ("en" ∈ autoLangsOf ⟨none, [], ["en-GB"]⟩) := by
  decide

/-- Claim C4 (amended): the English auto candidate — always the bare tag
"en" — is added whenever the auto pool contains the bare "en" tag or any
"en-"-prefixed tag not ending in "-orig". -/
theorem C4_en_auto_rule (info : SubtitleInfo)
    (h : (autoLangsOf info).any
        (fun l => l == "en" || (sStartsWith l "en-" && !(sEndsWith l "-orig"))) = true) :
    SelectedLanguage.mk "en" false ∈ selectLanguagePriorities info := by
  rw [selectLanguagePriorities, mem_dedupKeepFirst]
  have hex : ∃ x ∈ autoLangsOf info,
      (x == "en" || (sStartsWith x "en-" && !(sEndsWith x "-orig"))) = true :=
    List.any_eq_true.mp h
  have hp5 : prio5 info = [⟨"en", false⟩] := by
    rw [prio5]
    cases hf : (autoLangsOf info).find?
        (fun l => l == "en" || (sStartsWith l "en-" && !(sEndsWith l "-orig"))) with
    | some m => rfl
    | none =>
      obtain ⟨x, hx, hpx⟩ := hex
      have hnone := List.find?_eq_none.mp hf x hx
      rw [hpx] at hnone
      exact absurd rfl hnone
  simp [candidateStream, hp5]

theorem C4_en_auto_rule_witness :
    SelectedLanguage.mk "en" false ∈ selectLanguagePriorities ⟨none, [], ["en-GB"]⟩ :=
  C4_en_auto_rule _ (by decide)

/-- Claim C5 counterexample: with original language "es" and auto pool
{"es-orig"}, the prioritizer does add the base-code candidate ("es", auto),
but the "-orig" variant ("es-orig", auto) also appears in the output (via
the remaining-auto sweep), contradicting the claim's "never the -orig
variant". -/
theorem C5_counterexample :
    SelectedLanguage.mk "es-orig" false ∈ selectLanguagePriorities ⟨some "es", [], ["es-orig"]⟩ ∧
    SelectedLanguage.mk "es" false ∈ selectLanguagePriorities ⟨some "es", [], ["es-orig"]⟩ := by
  decide

/-- Claim C5 (amended): for every availability with a known (nonempty)
original language whose auto pool contains the bare base code or the base
code suffixed "-orig", the prioritizer adds the base code (not the "-orig"
variant) as the original-language auto candidate; the "-orig" key itself
may still appear later in the sequence via the remaining-auto rule. -/
theorem C5_orig_base_rule (info : SubtitleInfo) (o : String)
    (h1 : info.language = some o) (h2 : o ≠ "")
    (h3 : (autoLangsOf info).any
        (fun l => l == baseLangCode o || l == baseLangCode o ++ "-orig") = true) :
    SelectedLanguage.mk (baseLangCode o) false ∈ selectLanguagePriorities info := by
  rw [selectLanguagePriorities, mem_dedupKeepFirst]
  have hp4 : prio4 info = [⟨baseLangCode o, false⟩] := by
    simp [prio4, h1, h2, h3]
  simp [candidateStream, hp4]

theorem C5_orig_base_rule_witness :
    SelectedLanguage.mk (baseLangCode "es") false ∈
      selectLanguagePriorities ⟨some "es", [], ["es-orig"]⟩ :=
  C5_orig_base_rule _ "es" rfl (by decide) (by decide)

/-- Claim C3: in explicit-language mode the cascade performs exactly one
download attempt, for the requested language, with no availability fetch
and no fallback; any attempt failure propagates unchanged; and an attempt
whose tool run exits cleanly but produces no caption file matching the
requested language fails with NO_SUBTITLES instead of substituting another
language. -/
theorem C3_explicit_mode (parse : String → Option URLParts) (env : Env)
    (url l vid : String)
    (h1 : extractVideoId parse url = some vid) (h2 : l ≠ "") (h3 : l ≠ "auto") :
    (downloadAndParseTranscript parse env url (some l)).2 = [Call.dlSub l] ∧
    (∀ e, env.subAttempt 0 l = Except.error e →
      (downloadAndParseTranscript parse env url (some l)).1 = Except.error e) ∧
    (∀ run : ToolRun, run.exitCode = 0 →
      run.files.filter (fun f => matchesSubGlob vid l f) = [] →
      tryDownloadSubtitle run vid l =
        Except.error ⟨"No subtitles available for language: " ++ l, "NO_SUBTITLES", 404⟩) := by
  refine ⟨?_, ?_, ?_⟩
  · rw [downloadAndParseTranscript, h1]
    simp only [h2, h3, ne_eq, not_false_eq_true, and_self, if_true]
    cases env.subAttempt 0 l <;> rfl
  · intro e he
    rw [downloadAndParseTranscript, h1]
    simp only [h2, h3, ne_eq, not_false_eq_true, and_self, if_true]
    rw [he]
  · intro run hexit hfilter
    rw [tryDownloadSubtitle, if_neg (by simp [hexit]), findSubtitleFile, hfilter]
    rfl

theorem C3_explicit_mode_witness :
    (downloadAndParseTranscript parseW envW "u" (some "fr")).2 = [Call.dlSub "fr"] :=
  (C3_explicit_mode parseW envW "u" "fr" "vid01234567" rfl (by decide) (by decide)).1

/-- Claim C10: a successful explicit-language request returns a result with
wasAutoDetected = false and no availableLanguages, and the caption-metadata
fetcher is never invoked. -/
theorem C10_explicit_result (parse : String → Option URLParts) (env : Env)
    (url l vid : String) (d : DlOk)
    (h1 : extractVideoId parse url = some vid) (h2 : l ≠ "") (h3 : l ≠ "auto")
    (h4 : env.subAttempt 0 l = Except.ok d) :
    (downloadAndParseTranscript parse env url (some l)).1 =
      Except.ok ⟨d.transcript, vid, d.subtitleType, l, false, none⟩ ∧
    Call.avail ∉ (downloadAndParseTranscript parse env url (some l)).2 := by
  have hred : downloadAndParseTranscript parse env url (some l) =
      (Except.ok ⟨d.transcript, vid, d.subtitleType, l, false, none⟩, [Call.dlSub l]) := by
    rw [downloadAndParseTranscript, h1]
    simp only [h2, h3, ne_eq, not_false_eq_true, and_self, if_true]
    rw [h4]
  rw [hred]
  simp

theorem C10_explicit_result_witness :
    (downloadAndParseTranscript parseW envOk "u" (some "fr")).1 =
      Except.ok ⟨"txt", "vid01234567", SubType.auto, "fr", false, none⟩ :=
  (C10_explicit_result parseW envOk "u" "fr" "vid01234567" ⟨"txt", SubType.auto⟩
    rfl (by decide) (by decide) rfl).1

/-- Claim C1: in auto-detect mode, when the final original-language
fallback attempt fails, the raised error follows this precedence: a
RATE_LIMITED failure of the fallback itself is raised; otherwise the
rate-limit error remembered from an earlier ranked attempt if one exists,
else the fallback attempt's own error, else a generic NO_SUBTITLES. -/
theorem C1_fallback_error_precedence (parse : String → Option URLParts) (env : Env)
    (url : String) (lang : Option String) (vid : String) (info : SubtitleInfo)
    (lastErr : Option TranscriptError) (e : JsError)
    (h0 : isExplicitReq lang = false)
    (h1 : extractVideoId parse url = some vid)
    (h2 : env.avail = Except.ok info)
    (h3 : (selectLanguagePriorities info).isEmpty = false)
    (h4 : (rankedLoop env vid (availLangsOf info)
        ((selectLanguagePriorities info).take 2) 0 none).1 = Sum.inr lastErr)
    (h5 : env.origAttempt (fallbackBase info) = Except.error e) :
    (downloadAndParseTranscript parse env url lang).1 = fallbackRaise lastErr e := by
  rw [dAPT_auto_mode parse env url lang vid h0 h1, autoCascade, h2]
  simp only [h3, Bool.false_eq_true, if_false]
  rcases hr : rankedLoop env vid (availLangsOf info)
      ((selectLanguagePriorities info).take 2) 0 none with ⟨r1, tr⟩
  rw [hr] at h4
  have h4x : r1 = Sum.inr lastErr := h4
  subst h4x
  rw [h5]
  cases e <;> cases lastErr <;> simp [fallbackRaise]

theorem C1_fallback_error_precedence_witness :
    (downloadAndParseTranscript parseW envW "u" none).1 = Except.error (JsError.te rlErrW) :=
  C1_fallback_error_precedence parseW envW "u" none "vid01234567" infoW
    (some rlErrW) JsError.other rfl rfl rfl (by decide) rfl rfl

/-- Claim C9: in auto-detect mode, when the ranked attempts are exhausted
and the original language is unknown, the final fallback attempt is made
with "en" as the base language code instead of failing for lack of an
original language. -/
theorem C9_fallback_uses_en (parse : String → Option URLParts) (env : Env)
    (url : String) (lang : Option String) (vid : String) (info : SubtitleInfo)
    (lastErr : Option TranscriptError)
    (h0 : isExplicitReq lang = false)
    (h1 : extractVideoId parse url = some vid)
    (h2 : env.avail = Except.ok info)
    (h2b : info.language = none)
    (h3 : (selectLanguagePriorities info).isEmpty = false)
    (h4 : (rankedLoop env vid (availLangsOf info)
        ((selectLanguagePriorities info).take 2) 0 none).1 = Sum.inr lastErr) :
    origCalls (downloadAndParseTranscript parse env url lang).2 = [Call.dlOrig "en"] := by
  have hbase : fallbackBase info = "en" := by
    rw [fallbackBase, h2b]
    rfl
  rw [dAPT_auto_mode parse env url lang vid h0 h1, autoCascade, h2]
  simp only [h3, Bool.false_eq_true, if_false]
  rcases hr : rankedLoop env vid (availLangsOf info)
      ((selectLanguagePriorities info).take 2) 0 none with ⟨r1, tr⟩
  rw [hr] at h4
  have h4x : r1 = Sum.inr lastErr := h4
  subst h4x
  obtain ⟨m, hm, htr⟩ := rankedLoop_trace env vid (availLangsOf info)
    ((selectLanguagePriorities info).take 2) 0 none
  rw [hr] at htr
  have htrx : tr = List.map (fun c => Call.dlSub c.lang)
      (((selectLanguagePriorities info).take 2).take m) := htr
  subst htrx
  rw [hbase]
  show origCalls (Call.avail :: (List.map (fun c => Call.dlSub c.lang)
      (((selectLanguagePriorities info).take 2).take m) ++ [Call.dlOrig "en"])) =
    [Call.dlOrig "en"]
  rw [origCalls_cons_avail, origCalls_append, origCalls_map_dlSub]
  rfl

theorem autoCascade_calls (env : Env) (vid : String) (info : SubtitleInfo)
    (h2 : env.avail = Except.ok info)
    (h3 : (selectLanguagePriorities info).isEmpty = false) :
    ∃ m, m ≤ 2 ∧
      subLangs (autoCascade env vid).2 =
        ((selectLanguagePriorities info).take m).map SelectedLanguage.lang ∧
      (downloadCalls (autoCascade env vid).2).length ≤ 3 := by
  rw [autoCascade, h2]
  simp only [h3, Bool.false_eq_true, if_false]
  rcases hr : rankedLoop env vid (availLangsOf info)
      ((selectLanguagePriorities info).take 2) 0 none with ⟨r1, tr⟩
  obtain ⟨m0, hm0, htr⟩ := rankedLoop_trace env vid (availLangsOf info)
    ((selectLanguagePriorities info).take 2) 0 none
  rw [hr] at htr
  have htrx : tr = List.map (fun c => Call.dlSub c.lang)
      (((selectLanguagePriorities info).take 2).take m0) := htr
  subst htrx
  have hTT : ((selectLanguagePriorities info).take 2).take m0 =
      (selectLanguagePriorities info).take (min m0 2) :=
    List.take_take m0 2 _
  have hlen : (List.map (fun c => Call.dlSub c.lang)
      (((selectLanguagePriorities info).take 2).take m0)).length ≤ 2 := by
    rw [List.length_map, List.length_take, List.length_take]
    omega
  refine ⟨min m0 2, Nat.min_le_right m0 2, ?_, ?_⟩
  · cases r1 with
    | inl r =>
      show subLangs (Call.avail :: List.map (fun c => Call.dlSub c.lang)
          (((selectLanguagePriorities info).take 2).take m0)) = _
      rw [subLangs_cons_avail, subLangs_map_dlSub, hTT]
    | inr le2 =>
      show subLangs (Call.avail :: (List.map (fun c => Call.dlSub c.lang)
          (((selectLanguagePriorities info).take 2).take m0)
            ++ [Call.dlOrig (fallbackBase info)])) = _
      rw [subLangs_cons_avail, subLangs_append, subLangs_map_dlSub, hTT]
      simp [subLangs]
  · cases r1 with
    | inl r =>
      show (downloadCalls (Call.avail :: List.map (fun c => Call.dlSub c.lang)
          (((selectLanguagePriorities info).take 2).take m0))).length ≤ 3
      rw [downloadCalls_cons_avail, downloadCalls_map_dlSub]
      omega
    | inr le2 =>
      show (downloadCalls (Call.avail :: (List.map (fun c => Call.dlSub c.lang)
          (((selectLanguagePriorities info).take 2).take m0)
            ++ [Call.dlOrig (fallbackBase info)]))).length ≤ 3
      rw [downloadCalls_cons_avail, downloadCalls_append, downloadCalls_map_dlSub]
      have : (downloadCalls [Call.dlOrig (fallbackBase info)]).length = 1 := rfl
      rw [List.length_append, this]
      omega

theorem autoCascade_stop (env : Env) (vid : String) (info : SubtitleInfo)
    (c : SelectedLanguage) (rest : List SelectedLanguage)
    (h2 : env.avail = Except.ok info)
    (hpr : selectLanguagePriorities info = c :: rest)
    (hnot : exceptIsRL (env.subAttempt 0 c.lang) = false) :
    subLangs (autoCascade env vid).2 = [c.lang] ∧
    (∀ e, env.subAttempt 0 c.lang = Except.error e →
      (autoCascade env vid).1 = Except.error e) := by
  rw [autoCascade, h2]
  simp only [hpr, List.isEmpty_cons, Bool.false_eq_true, if_false]
  rw [show (c :: rest).take 2 = c :: rest.take 1 from rfl, rankedLoop]
  cases hatt : env.subAttempt 0 c.lang with
  | ok d =>
    constructor
    · rfl
    · intro e he
      exact absurd he (by simp)
  | error e0 =>
    rw [hatt] at hnot
    cases e0 with
    | te t =>
      have hc : ¬ t.code = "RATE_LIMITED" := by
        simpa [exceptIsRL, isRateLimitErr] using hnot
      simp only [hc, if_false]
      constructor
      · rfl
      · intro e he
        injection he with h
        subst h
        rfl
    | other =>
      constructor
      · rfl
      · intro e he
        injection he with h
        subst h
        rfl

theorem autoCascade_second_stop (env : Env) (vid : String) (info : SubtitleInfo)
    (c0 c1 : SelectedLanguage) (rest : List SelectedLanguage) (e : JsError)
    (h2 : env.avail = Except.ok info)
    (hpr : selectLanguagePriorities info = c0 :: c1 :: rest)
    (hrl : exceptIsRL (env.subAttempt 0 c0.lang) = true)
    (hatt1 : env.subAttempt 1 c1.lang = Except.error e)
    (hnot : isRateLimitErr e = false) :
    (autoCascade env vid).1 = Except.error e ∧
    subLangs (autoCascade env vid).2 = [c0.lang, c1.lang] := by
  rw [autoCascade, h2]
  simp only [hpr, List.isEmpty_cons, Bool.false_eq_true, if_false]
  rw [show (c0 :: c1 :: rest).take 2 = [c0, c1] from rfl, rankedLoop]
  cases hatt0 : env.subAttempt 0 c0.lang with
  | ok d =>
    rw [hatt0] at hrl
    exact absurd hrl (by simp [exceptIsRL])
  | error e0 =>
    rw [hatt0] at hrl
    cases e0 with
    | other => exact absurd hrl (by simp [exceptIsRL, isRateLimitErr])
    | te t0 =>
      have hc0 : t0.code = "RATE_LIMITED" := by
        simpa [exceptIsRL, isRateLimitErr] using hrl
      simp only [hc0, if_true, rankedLoop]
      rw [hatt1]
      cases e with
      | te t1 =>
        have hc1 : ¬ t1.code = "RATE_LIMITED" := by
          simpa [isRateLimitErr] using hnot
        simp only [hc1, if_false]
        exact ⟨trivial, rfl⟩
      | other => exact ⟨rfl, rfl⟩

/-- Claim C2: in auto-detect mode the cascade performs at most three
download attempts in total (two ranked candidates plus the single
original-language fallback); the ranked attempts are, in order, a prefix
of the first two priority candidates; the cascade continues past the first
ranked candidate only when its attempt is rate-limited; and a
non-rate-limit failure of either ranked attempt is surfaced immediately as
the request's error. -/
theorem C2_attempt_cap (parse : String → Option URLParts) (env : Env)
    (url : String) (lang : Option String)
    (h0 : isExplicitReq lang = false) :
    (downloadCalls (downloadAndParseTranscript parse env url lang).2).length ≤ 3 ∧
    (∀ info, env.avail = Except.ok info →
      ∃ m, m ≤ 2 ∧
        subLangs (downloadAndParseTranscript parse env url lang).2 =
          ((selectLanguagePriorities info).take m).map SelectedLanguage.lang) ∧
    (∀ vid info c rest, extractVideoId parse url = some vid →
      env.avail = Except.ok info → selectLanguagePriorities info = c :: rest →
      exceptIsRL (env.subAttempt 0 c.lang) = false →
      subLangs (downloadAndParseTranscript parse env url lang).2 = [c.lang]) ∧
    (∀ vid info c rest e, extractVideoId parse url = some vid →
      env.avail = Except.ok info → selectLanguagePriorities info = c :: rest →
      env.subAttempt 0 c.lang = Except.error e → isRateLimitErr e = false →
      (downloadAndParseTranscript parse env url lang).1 = Except.error e) ∧
    (∀ vid info c0 c1 rest e, extractVideoId parse url = some vid →
      env.avail = Except.ok info → selectLanguagePriorities info = c0 :: c1 :: rest →
      exceptIsRL (env.subAttempt 0 c0.lang) = true →
      env.subAttempt 1 c1.lang = Except.error e → isRateLimitErr e = false →
      (downloadAndParseTranscript parse env url lang).1 = Except.error e ∧
        subLangs (downloadAndParseTranscript parse env url lang).2 = [c0.lang, c1.lang]) := by
  refine ⟨?_, ?_, ?_, ?_, ?_⟩
  · cases hvid : extractVideoId parse url with
    | none =>
      rw [dAPT_no_vid parse env url lang hvid]
      simp [downloadCalls]
    | some vid =>
      rw [dAPT_auto_mode parse env url lang vid h0 hvid]
      cases henv : env.avail with
      | error e2 =>
        rw [autoCascade, henv]
        simp [downloadCalls, isDownloadCall, List.filter_cons]
      | ok info =>
        by_cases he : (selectLanguagePriorities info).isEmpty
        · rw [autoCascade, henv]
          simp [he, downloadCalls, isDownloadCall, List.filter_cons]
        · obtain ⟨m, hm, hsub, hlen⟩ := autoCascade_calls env vid info henv
            (by simp only [Bool.not_eq_true] at he; exact he)
          exact hlen
  · intro info hinfo
    cases hvid : extractVideoId parse url with
    | none =>
      rw [dAPT_no_vid parse env url lang hvid]
      exact ⟨0, by simp, by simp [subLangs]⟩
    | some vid =>
      rw [dAPT_auto_mode parse env url lang vid h0 hvid]
      by_cases he : (selectLanguagePriorities info).isEmpty
      · rw [autoCascade, hinfo]
        refine ⟨0, by simp, ?_⟩
        simp [he, subLangs]
      · obtain ⟨m, hm, hsub, hlen⟩ := autoCascade_calls env vid info hinfo
          (by simp only [Bool.not_eq_true] at he; exact he)
        exact ⟨m, hm, hsub⟩
  · intro vid info c rest hvid hinfo hpr hnot
    rw [dAPT_auto_mode parse env url lang vid h0 hvid]
    exact (autoCascade_stop env vid info c rest hinfo hpr hnot).1
  · intro vid info c rest e hvid hinfo hpr hatt hnotRL
    rw [dAPT_auto_mode parse env url lang vid h0 hvid]
    have hnot : exceptIsRL (env.subAttempt 0 c.lang) = false := by
      rw [hatt]
      simpa [exceptIsRL] using hnotRL
    exact (autoCascade_stop env vid info c rest hinfo hpr hnot).2 e hatt
  · intro vid info c0 c1 rest e hvid hinfo hpr hrl hatt1 hnot
    rw [dAPT_auto_mode parse env url lang vid h0 hvid]
    exact autoCascade_second_stop env vid info c0 c1 rest e hinfo hpr hrl hatt1 hnot

theorem C2_attempt_cap_witness :
    (downloadCalls (downloadAndParseTranscript parseW envW "u" none).2).length ≤ 3 :=
  (C2_attempt_cap parseW envW "u" none (by decide)).1

/-- Claim C8: for every request whose URL's host neither exactly matches
nor is a subdomain of the fixed platform allow-list, the handler fails
with INVALID_URL and performs no external invocation at all. -/
theorem C8_invalid_host (parse : String → Option URLParts) (env : Env)
    (metaRes : Except JsError MetaInfo) (u : String) (langParam : Option String)
    (hu : u ≠ "")
    (hhost : ∀ p : URLParts, parse u = some p → hostOnAllowList p.hostname = false) :
    transcriptEndpoint parse env metaRes (some u) langParam =
      (HResp.failure "Invalid YouTube URL" "INVALID_URL" 400, []) := by
  have hvalid : isValidYouTubeUrl parse u = false := by
    rw [isValidYouTubeUrl]
    cases hp : parse u with
    | none => rfl
    | some p => exact hhost p hp
  rw [transcriptEndpoint]
  simp [hu, hvalid]

theorem C8_invalid_host_witness :
    transcriptEndpoint parseBad envW (Except.error JsError.other)
        (some "https:example.com/watch?v=abc") none =
      (HResp.failure "Invalid YouTube URL" "INVALID_URL" 400, []) :=
  C8_invalid_host parseBad envW (Except.error JsError.other) "https:example.com/watch?v=abc"
    none (by decide) (fun p hp => by injection hp with h; subst h; decide)

theorem C9_fallback_uses_en_witness :
    origCalls (downloadAndParseTranscript parseW envW9 "u" none).2 = [Call.dlOrig "en"] :=
  C9_fallback_uses_en parseW envW9 "u" none "vid01234567" infoW9 (some rlErrW)
    rfl rfl rfl rfl (by decide) rfl

end YT
